import Mathlib

/-!
Verification development for the alarm-button repository.

The definitions below are a shallow embedding of the Go sources:
  - internal/domain/alarm/state.go        (Actor, State, Clone)
  - internal/repository/state/file.go     (FileRepository Load/Save, fromProto/toProto)
  - internal/api/grpc/alarm/server.go     (gRPC Server.SetAlarmState / GetAlarmState)
  - internal/service/server/command.go    (service, newService, SetAlarmState,
                                           GetAlarmState, checker.Run, checkState)
  - internal/service/client/command.go    (button client Run and its attempt closure)

Go pointers that may be nil are embedded as `Option`; Go `time.Time` is
embedded as a wall-clock pair (seconds since the Go zero time, nanoseconds);
fallible operations return `Except`.  Stateful methods take the receiver and
return the updated receiver explicitly.
-/

namespace AlarmButton

/-- Go `time.Time`, wall-clock part only: `sec` counts seconds since the Go
zero instant (January 1, year 1) and `nsec` is the sub-second part in
nanoseconds.  Mirrors the fields `time.Time` serialises through
`timestamppb`. -/
structure GoTime where
  sec : Int
  nsec : Int
deriving Repr, DecidableEq

/-- `time.Time.IsZero`: the zero instant. -/
def GoTime.isZero (t : GoTime) : Bool :=
  t.sec == 0 && t.nsec == 0

/-- The Go zero `time.Time`. -/
def GoTime.zero : GoTime := ⟨0, 0⟩

/-- Offset between the Go internal epoch (year 1) and the Unix epoch, in
seconds: `unixToInternal` from the Go time package. -/
def unixToInternal : Int := 62135596800

/-- `internal/domain/alarm.Actor`: who performed an action. -/
structure Actor where
  hostname : String
  username : String
deriving Repr, DecidableEq

/-- `Actor.Clone` (state.go:14-22): deep copy; a nil receiver yields nil.
The receiver is an `Option Actor` because the Go method is defined on
`*Actor` and is explicitly nil-tolerant. -/
def Actor.clone : Option Actor → Option Actor
  | none => none
  | some a => some ⟨a.hostname, a.username⟩

/-- `internal/domain/alarm.State`: the alarm status at a point in time. -/
structure State where
  timestamp : GoTime
  lastActor : Option Actor
  isEnabled : Bool
deriving Repr, DecidableEq

/-- `State.Clone` (state.go:35-41): copies every field, cloning the actor. -/
def State.clone (s : State) : State :=
  { timestamp := s.timestamp
    lastActor := Actor.clone s.lastActor
    isEnabled := s.isEnabled }

/-- `pb.SystemActor`: the wire representation of an actor. -/
structure SystemActor where
  hostname : String
  username : String
deriving Repr, DecidableEq

/-- `timestamppb.Timestamp`: seconds since the Unix epoch plus nanoseconds. -/
structure ProtoTimestamp where
  seconds : Int
  nanos : Int
deriving Repr, DecidableEq

/-- `timestamppb.New`: convert a Go time to a protobuf timestamp
(`t.Unix()` subtracts the epoch offset). -/
def timestamppbNew (t : GoTime) : ProtoTimestamp :=
  ⟨t.sec - unixToInternal, t.nsec⟩

/-- `Timestamp.AsTime`: convert a protobuf timestamp back to a Go time. -/
def ProtoTimestamp.asTime (p : ProtoTimestamp) : GoTime :=
  ⟨p.seconds + unixToInternal, p.nanos⟩

/-- `pb.AlarmStateResponse`: the wire representation of the alarm state.
Optional fields are nil-able protobuf message fields. -/
structure AlarmStateResponse where
  timestamp : Option ProtoTimestamp
  lastActor : Option SystemActor
  isEnabled : Bool
deriving Repr, DecidableEq

/-- `toProto` (file.go:118-137): domain state to wire message.  A zero
timestamp maps to an absent field, a nil actor to an absent field. -/
def toProto (state : State) : AlarmStateResponse :=
  { timestamp := if state.timestamp.isZero then none
                 else some (timestamppbNew state.timestamp)
    lastActor := state.lastActor.map (fun a => ⟨a.hostname, a.username⟩)
    isEnabled := state.isEnabled }

/-- `fromProto` (file.go:93-115): wire message to domain state.  An absent
timestamp becomes the zero time; an absent actor stays absent. -/
def fromProto (protoState : AlarmStateResponse) : State :=
  { timestamp := match protoState.timestamp with
                 | none => GoTime.zero
                 | some ts => ts.asTime
    lastActor := protoState.lastActor.map (fun a => ⟨a.hostname, a.username⟩)
    isEnabled := protoState.isEnabled }

/-- Failure modes of `FileRepository.Load` (file.go:47-66): the distinguished
not-found condition, a wrapped read error, or a wrapped decode error. -/
inductive LoadError
  | notFound
  | readError
  | decodeError
deriving Repr, DecidableEq

/-- `state.FileRepository` together with the disk cell it owns.
Modelled from the spec: the protojson encode/decode round trip of an
`AlarmStateResponse` (library code, not in this repository) is lossless, so
the file contents are kept as the message itself; `contents = none` means
the file does not exist.  `readFails` models a non-ENOENT `os.ReadFile`
failure on an existing file, `corrupt` a file that `protojson.Unmarshal`
rejects, and `writeFails` an `os.WriteFile` failure. -/
structure FileRepo where
  contents : Option AlarmStateResponse
  corrupt : Bool
  readFails : Bool
  writeFails : Bool
deriving Repr, DecidableEq

/-- `FileRepository.Load` (file.go:47-66): a missing file is ErrNotFound,
any other read failure is a wrapped read error, an undecodable file a
wrapped decode error, otherwise the decoded state via `fromProto`. -/
def FileRepo.load (r : FileRepo) : Except LoadError State :=
  match r.contents with
  | none => .error .notFound
  | some protoState =>
      if r.readFails then .error .readError
      else if r.corrupt then .error .decodeError
      else .ok (fromProto protoState)

/-- `FileRepository.Save` (file.go:69-90): encode via `toProto` and write the
whole file; a write failure returns an error and leaves the file as it was. -/
def FileRepo.save (r : FileRepo) (state : State) : Except Unit FileRepo :=
  if r.writeFails then .error ()
  else .ok { r with contents := some (toProto state), corrupt := false }

/-- `server.service` (command.go:138-145): the repository (nil-able) and the
current in-memory state.  The mutex is not modelled: operations are already
atomic steps here. -/
structure Service where
  repo : Option FileRepo
  state : State
deriving Repr, DecidableEq

/-- `newService` (command.go:148-174): start from the default disabled state
with no actor, then replace it with the loaded state when the repository has
one; ErrNotFound keeps the default; any other load error is fatal. -/
def newService (repository : Option FileRepo) (now : GoTime) :
    Except LoadError Service :=
  let s : Service := { repo := repository
                       state := { timestamp := now
                                  lastActor := none
                                  isEnabled := false } }
  match repository with
  | none => .ok s
  | some r =>
      match r.load with
      | .ok state => .ok { s with state := state }
      | .error .notFound => .ok s
      | .error e => .error e

/-- `service.SetAlarmState` (command.go:177-200): swap the in-memory state to
the new value first, then persist; a persistence failure returns an error
(with the swap already performed); on success return a clone of the new
state. -/
def Service.setAlarmState (s : Service) (actor : Option Actor)
    (isEnabled : Bool) (now : GoTime) : Except Unit State × Service :=
  let newState : State := { timestamp := now
                            lastActor := Actor.clone actor
                            isEnabled := isEnabled }
  let s1 : Service := { s with state := newState }
  match s1.repo with
  | none => (.ok newState.clone, s1)
  | some r =>
      match r.save newState with
      | .ok r2 => (.ok newState.clone, { s1 with repo := some r2 })
      | .error e => (.error e, s1)

/-- `service.GetAlarmState` (command.go:203-212): return a clone of the
current state; the service is unchanged. -/
def Service.getAlarmState (s : Service) : State :=
  s.state.clone

/-- `pb.SetAlarmStateRequest`: wire request for a state change. -/
structure SetAlarmStateRequest where
  actor : Option SystemActor
  isEnabled : Bool
deriving Repr, DecidableEq

/-- The gRPC status codes the alarm server uses. -/
inductive GrpcCode
  | invalidArgument
  | internal
deriving Repr, DecidableEq

/-- `req.GetActor()`: protobuf getters are nil-tolerant, so a nil request
reads as an absent actor. -/
def reqGetActor : Option SetAlarmStateRequest → Option SystemActor
  | none => none
  | some req => req.actor

/-- `req.GetIsEnabled()`: nil-tolerant getter, false on a nil request. -/
def reqGetIsEnabled : Option SetAlarmStateRequest → Bool
  | none => false
  | some req => req.isEnabled

/-- `toDomainActor` (server.go:63-72). -/
def toDomainActor : Option SystemActor → Option Actor
  | none => none
  | some a => some ⟨a.hostname, a.username⟩

/-- `toProtoState` (server.go:75-98): same field mapping as the repository
encoder; a nil state maps to an empty response. -/
def toProtoState : Option State → AlarmStateResponse
  | none => ⟨none, none, false⟩
  | some state => toProto state

/-- `Server.SetAlarmState` (server.go:36-53): a nil request or a missing
actor is InvalidArgument before the service is touched; a service error is
Internal (the service state is whatever the failed call left behind);
otherwise the new state is returned on the wire. -/
def serverSetAlarmState (svc : Service) (req : Option SetAlarmStateRequest)
    (now : GoTime) : Except GrpcCode AlarmStateResponse × Service :=
  match req with
  | none => (.error .invalidArgument, svc)
  | some r =>
      match r.actor with
      | none => (.error .invalidArgument, svc)
      | some protoActor =>
          let actor := toDomainActor (some protoActor)
          match svc.setAlarmState actor r.isEnabled now with
          | (.ok state, svc2) => (.ok (toProtoState (some state)), svc2)
          | (.error _, svc2) => (.error .internal, svc2)

/-- `Server.GetAlarmState` (server.go:56-60): wrap the service read. -/
def serverGetAlarmState (svc : Service) : AlarmStateResponse :=
  toProtoState (some svc.getAlarmState)

/-! ## Checker daemon (internal/service/server/command.go, package checker) -/

/-- `checker.DefaultPollInterval` (command.go:243): 5 seconds, in
milliseconds. -/
def defaultPollInterval : Nat := 5000

/-- What `checkState` comes back with: nil, the RPC error, the
`power.Shutdown` error, or the distinguished `errShutdownInitiated`. -/
inductive CheckResult
  | ok
  | rpcError
  | shutdownFailed
  | shutdownInitiated
deriving Repr, DecidableEq

/-- `checkState` (command.go:319-358), as a function of this tick's RPC
outcome (`resp`), the debug flag, and whether `power.Shutdown` would succeed
this tick.  The second component records whether the OS shutdown command was
invoked. -/
def checkState (resp : Except Unit AlarmStateResponse) (debug : Bool)
    (shutdownOk : Bool) : CheckResult × Bool :=
  match resp with
  | .error _ => (.rpcError, false)
  | .ok state =>
      if !state.isEnabled then (.ok, false)
      else if debug then (.ok, false)
      else if shutdownOk then (.shutdownInitiated, true)
      else (.shutdownFailed, true)

/-- One iteration of the checker's select loop: either the context is found
canceled, or the ticker fires and `checkState` runs against the environment
carried by the event. -/
inductive TickEvent
  | canceled
  | tick (resp : Except Unit AlarmStateResponse) (shutdownOk : Bool)
deriving Repr

/-- How a finite run of a polling loop ended: the function returned nil, or
the supplied events ran out with the loop still going. -/
inductive RunOutcome
  | returnedNil
  | stillRunning
deriving Repr, DecidableEq

/-- Observable trace of a checker run: how it ended, how many times the OS
shutdown command was invoked, how many GetAlarmState RPCs were issued, and
at what times (in the same unit as the interval) each RPC happened. -/
structure CheckerTrace where
  outcome : RunOutcome
  shutdownCount : Nat
  pollCount : Nat
  pollTimes : List Nat
deriving Repr, DecidableEq

/-- The checker's polling loop (command.go:297-314) over a finite event
list.  `k` counts ticker firings so far: `time.NewTicker` fires first one
full interval after creation, so the event at index `k` happens at time
`(k + 1) * interval`.  Context cancellation returns nil immediately;
`errShutdownInitiated` from `checkState` returns nil; every other
`checkState` error is logged and the loop continues. -/
def checkerRunAux (debug : Bool) (interval : Nat) :
    List TickEvent → Nat → CheckerTrace
  | [], _ => ⟨.stillRunning, 0, 0, []⟩
  | .canceled :: _, _ => ⟨.returnedNil, 0, 0, []⟩
  | .tick resp shutdownOk :: rest, k =>
      let t := (k + 1) * interval
      match checkState resp debug shutdownOk with
      | (.shutdownInitiated, invoked) =>
          ⟨.returnedNil, if invoked then 1 else 0, 1, [t]⟩
      | (_, invoked) =>
          let tr := checkerRunAux debug interval rest (k + 1)
          ⟨tr.outcome, (if invoked then 1 else 0) + tr.shutdownCount,
           1 + tr.pollCount, t :: tr.pollTimes⟩

/-- `checker.Run`'s main loop, from loop entry (ticker just created). -/
def checkerRun (events : List TickEvent) (debug : Bool) (interval : Nat) :
    CheckerTrace :=
  checkerRunAux debug interval events 0

/-- `checker.Run`'s poll-interval normalisation (command.go:263-265): a
non-positive option falls back to the default. -/
def effectivePollInterval (p : Int) : Int :=
  if p ≤ 0 then (defaultPollInterval : Int) else p

/-! ## Button client (internal/service/client/command.go) -/

/-- `defaultPushInterval` (command.go:31): 1 second, in milliseconds. -/
def defaultPushInterval : Nat := 1000

/-- The environment one attempt of the button client runs against: the RPC
outcome (a nil response is kept distinct, as the code checks `resp != nil`)
and whether `power.Shutdown` would succeed right now. -/
structure AttemptInput where
  resp : Except Unit (Option AlarmStateResponse)
  shutdownOk : Bool

/-- What the `attempt` closure returns through its `(bool, error)` pair. -/
inductive AttemptResult
  | notDone
  | done
  | shutdownError
deriving Repr, DecidableEq

/-- The `attempt` closure (command.go:79-106): an RPC error is logged and
means not-done; a confirmed response (non-nil, `is_enabled` equal to the
desired value) is done, invoking the local shutdown first when enabling
outside debug mode; any other response means not-done.  The second component
records whether the OS shutdown command was invoked. -/
def attempt (inp : AttemptInput) (desired debug : Bool) :
    AttemptResult × Bool :=
  match inp.resp with
  | .error _ => (.notDone, false)
  | .ok none => (.notDone, false)
  | .ok (some resp) =>
      if resp.isEnabled == desired then
        if desired && !debug then
          if inp.shutdownOk then (.done, true) else (.shutdownError, true)
        else (.done, false)
      else (.notDone, false)

/-- One iteration of the client's retry select loop. -/
inductive ClientEvent
  | canceled
  | tick (inp : AttemptInput)

/-- How the client's `Run` ended on a finite event list. -/
inductive ClientOutcome
  | success
  | canceledErr
  | shutdownErr
  | running
deriving Repr, DecidableEq

/-- Observable trace of a client run: how it ended, how many SetAlarmState
attempts were made, and how many times the OS shutdown command was
invoked. -/
structure ClientTrace where
  outcome : ClientOutcome
  attemptCount : Nat
  shutdownCount : Nat
deriving Repr, DecidableEq

/-- The client's retry loop (command.go:120-134): cancellation returns
`ctx.Err()`, a tick runs `attempt`, a shutdown error aborts, done returns
nil, not-done keeps looping. -/
def clientRunLoop (desired debug : Bool) : List ClientEvent → ClientTrace
  | [] => ⟨.running, 0, 0⟩
  | .canceled :: _ => ⟨.canceledErr, 0, 0⟩
  | .tick inp :: rest =>
      match attempt inp desired debug with
      | (.shutdownError, invoked) =>
          ⟨.shutdownErr, 1, if invoked then 1 else 0⟩
      | (.done, invoked) =>
          ⟨.success, 1, if invoked then 1 else 0⟩
      | (.notDone, invoked) =>
          let tr := clientRunLoop desired debug rest
          ⟨tr.outcome, 1 + tr.attemptCount,
           (if invoked then 1 else 0) + tr.shutdownCount⟩

/-- `client.Run` from the first attempt on (command.go:108-134): one
immediate attempt before the ticker exists, then the retry loop. -/
def clientRun (first : AttemptInput) (events : List ClientEvent)
    (desired debug : Bool) : ClientTrace :=
  match attempt first desired debug with
  | (.shutdownError, invoked) => ⟨.shutdownErr, 1, if invoked then 1 else 0⟩
  | (.done, invoked) => ⟨.success, 1, if invoked then 1 else 0⟩
  | (.notDone, invoked) =>
      let tr := clientRunLoop desired debug events
      ⟨tr.outcome, 1 + tr.attemptCount,
       (if invoked then 1 else 0) + tr.shutdownCount⟩

/-- A client attempt input that confirms the desired value: the RPC
succeeded with a non-nil response whose `is_enabled` equals `desired`. -/
def attemptMatches (inp : AttemptInput) (desired : Bool) : Prop :=
  ∃ resp, inp.resp = .ok (some resp) ∧ resp.isEnabled = desired

/-- Whether the next `Save` through this service's repository would fail
(no repository at all never fails: the code skips persistence). -/
def Service.saveFails (svc : Service) : Bool :=
  match svc.repo with
  | none => false
  | some r => r.writeFails

end AlarmButton

namespace AlarmButton

/-! ## Theorems -/

/-- C1: for every actor and boolean, and from every prior service state,
SetAlarmState followed immediately by GetAlarmState returns a state whose
is_enabled equals the value just set and whose last_actor equals (by field
value) the actor just supplied, unconditionally in the previous state. -/
theorem set_then_get_reflects_request (svc : Service) (a : Actor)
    (isEnabled : Bool) (now : GoTime) :
    ((svc.setAlarmState (some a) isEnabled now).2.getAlarmState).isEnabled
        = isEnabled ∧
    ((svc.setAlarmState (some a) isEnabled now).2.getAlarmState).lastActor
        = some a := by
  obtain ⟨h, u⟩ := a
  cases hrepo : svc.repo with
  | none =>
      simp [Service.setAlarmState, Service.getAlarmState, State.clone,
            Actor.clone, hrepo]
  | some r =>
      cases hw : r.writeFails with
      | false =>
          simp [Service.setAlarmState, Service.getAlarmState, State.clone,
                Actor.clone, FileRepo.save, hrepo, hw]
      | true =>
          simp [Service.setAlarmState, Service.getAlarmState, State.clone,
                Actor.clone, FileRepo.save, hrepo, hw]

/-- C2 counterexample: with a repository whose write fails, starting from a
disabled state, SetAlarmState(actor, true) returns an error, yet a
subsequent GetAlarmState observes is_enabled = true, not the previous
disabled state. -/
theorem set_persist_failure_observes_new_state :
    ((Service.mk (some ⟨none, false, false, true⟩) ⟨⟨100, 0⟩, none, false⟩).state).isEnabled
        = false ∧
    ((Service.mk (some ⟨none, false, false, true⟩)
        ⟨⟨100, 0⟩, none, false⟩).setAlarmState
        (some ⟨"h1", "u1"⟩) true ⟨200, 0⟩).1 = .error () ∧
    (((Service.mk (some ⟨none, false, false, true⟩)
        ⟨⟨100, 0⟩, none, false⟩).setAlarmState
        (some ⟨"h1", "u1"⟩) true ⟨200, 0⟩).2.getAlarmState).isEnabled
        = true :=
  ⟨rfl, rfl, rfl⟩

/-- C2 amended: if the repository Save fails during SetAlarmState, the
operation returns an error to the caller (never silently succeeds); the
in-memory state has however already been swapped, so a subsequent
GetAlarmState observes the newly requested value and actor, not the
previous state. -/
theorem set_persist_failure_errors_and_swaps (svc : Service) (r : FileRepo)
    (actor : Option Actor) (isEnabled : Bool) (now : GoTime)
    (hrepo : svc.repo = some r) (hw : r.writeFails = true) :
    (svc.setAlarmState actor isEnabled now).1 = .error () ∧
    ((svc.setAlarmState actor isEnabled now).2.getAlarmState).isEnabled
        = isEnabled ∧
    ((svc.setAlarmState actor isEnabled now).2.getAlarmState).lastActor
        = Actor.clone actor := by
  refine ⟨?_, ?_, ?_⟩ <;>
    simp [Service.setAlarmState, Service.getAlarmState, State.clone,
          FileRepo.save, hrepo, hw, Actor.clone]
  cases actor with
  | none => simp [Actor.clone]
  | some a => simp [Actor.clone]

/-- C2 amended, witness at a concrete failing repository. -/
theorem set_persist_failure_errors_and_swaps_witness :
    ((Service.mk (some ⟨none, false, false, true⟩)
        ⟨⟨100, 0⟩, none, false⟩).setAlarmState
        (some ⟨"h1", "u1"⟩) true ⟨200, 0⟩).1 = .error () :=
  (set_persist_failure_errors_and_swaps
    (Service.mk (some ⟨none, false, false, true⟩) ⟨⟨100, 0⟩, none, false⟩)
    ⟨none, false, false, true⟩ (some ⟨"h1", "u1"⟩) true ⟨200, 0⟩
    rfl rfl).1

/-- Round trip of the proto conversions: decoding an encoded state gives the
state back exactly, including the zero timestamp. -/
theorem fromProto_toProto (st : State) : fromProto (toProto st) = st := by
  obtain ⟨⟨sec, nsec⟩, lastActor, isEnabled⟩ := st
  cases hz : GoTime.isZero ⟨sec, nsec⟩ with
  | true =>
      have hsec : sec = 0 := by
        have := hz
        simp [GoTime.isZero] at this
        exact this.1
      have hnsec : nsec = 0 := by
        have := hz
        simp [GoTime.isZero] at this
        exact this.2
      cases lastActor with
      | none =>
          simp [fromProto, toProto, GoTime.isZero, GoTime.zero, hsec, hnsec]
      | some a =>
          simp [fromProto, toProto, GoTime.isZero, GoTime.zero, hsec, hnsec]
  | false =>
      cases lastActor with
      | none =>
          simp [fromProto, toProto, hz, timestamppbNew, ProtoTimestamp.asTime]
      | some a =>
          simp [fromProto, toProto, hz, timestamppbNew, ProtoTimestamp.asTime]

/-- C8: for every State, Save followed by Load through the file repository
(on a disk that accepts the write and whose read back succeeds) yields the
identical State — same is_enabled, same last_actor, timestamp preserved
exactly — and a zero timestamp is stored as an absent field, round-tripping
to the zero timestamp rather than to a real instant. -/
theorem save_load_round_trip (r : FileRepo) (st : State)
    (hw : r.writeFails = false) (hr : r.readFails = false) :
    ∃ r2, r.save st = .ok r2 ∧ r2.load = .ok st ∧
      (st.timestamp = GoTime.zero → (toProto st).timestamp = none) := by
  refine ⟨{ r with contents := some (toProto st), corrupt := false }, ?_, ?_, ?_⟩
  · simp [FileRepo.save, hw]
  · simp [FileRepo.load, hr, fromProto_toProto]
  · intro hz
    simp [toProto, hz, GoTime.isZero, GoTime.zero]

/-- C8 witness: a concrete round trip, both with a real timestamp and actor
and with the zero timestamp and no actor. -/
theorem save_load_round_trip_witness :
    ∃ r2, FileRepo.save ⟨none, false, false, false⟩
        ⟨⟨62135596800, 5⟩, some ⟨"h1", "u1"⟩, true⟩ = .ok r2 ∧
      r2.load = .ok ⟨⟨62135596800, 5⟩, some ⟨"h1", "u1"⟩, true⟩ ∧
      (GoTime.mk 62135596800 5 = GoTime.zero →
        (toProto ⟨⟨62135596800, 5⟩, some ⟨"h1", "u1"⟩, true⟩).timestamp = none) :=
  save_load_round_trip ⟨none, false, false, false⟩
    ⟨⟨62135596800, 5⟩, some ⟨"h1", "u1"⟩, true⟩ rfl rfl

/-- C7: Load on a path where no file exists returns the distinguished
not-found condition (never a generic read or decode error), service startup
then substitutes the default disabled state with no actor; any other load
failure makes startup fatal. -/
theorem load_absent_gives_notFound (r : FileRepo) (now : GoTime)
    (habs : r.contents = none) :
    r.load = .error .notFound ∧
    newService (some r) now = .ok ⟨some r, ⟨now, none, false⟩⟩ ∧
    (∀ r2 : FileRepo, ∀ e : LoadError, r2.load = .error e →
      e ≠ .notFound → newService (some r2) now = .error e) := by
  have hload : r.load = .error .notFound := by simp [FileRepo.load, habs]
  refine ⟨hload, ?_, ?_⟩
  · simp [newService, hload]
  · intro r2 e hl hne
    cases e with
    | notFound => exact absurd rfl hne
    | readError => simp [newService, hl]
    | decodeError => simp [newService, hl]

/-- C7 witness: the empty disk at startup keeps the default state, and a
corrupt state file makes startup fail with the decode error. -/
theorem load_absent_gives_notFound_witness :
    FileRepo.load ⟨none, false, false, false⟩ = .error .notFound ∧
    newService (some ⟨none, false, false, false⟩) ⟨7, 0⟩ =
      .ok ⟨some ⟨none, false, false, false⟩, ⟨⟨7, 0⟩, none, false⟩⟩ ∧
    newService (some ⟨some ⟨none, none, false⟩, true, false, false⟩) ⟨7, 0⟩ =
      .error .decodeError := by
  have h := load_absent_gives_notFound ⟨none, false, false, false⟩ ⟨7, 0⟩ rfl
  refine ⟨h.1, h.2.1, ?_⟩
  exact h.2.2 ⟨some ⟨none, none, false⟩, true, false, false⟩ .decodeError rfl
    (by simp)

/-- C10: every operation is total when the state has no actor — cloning a
nil actor yields nil, cloning a state without an actor keeps it absent, a
fresh service started against an absent file holds the default disabled
state, and the read path returns a response that simply omits the actor. -/
theorem nil_actor_paths_total (ts now : GoTime) (v : Bool) (svc : Service) :
    Actor.clone none = none ∧
    (State.clone ⟨ts, none, v⟩).lastActor = none ∧
    newService (some ⟨none, false, false, false⟩) now =
      .ok ⟨some ⟨none, false, false, false⟩, ⟨now, none, false⟩⟩ ∧
    serverGetAlarmState ⟨some ⟨none, false, false, false⟩, ⟨now, none, false⟩⟩ =
      ⟨if now.isZero then none else some (timestamppbNew now), none, false⟩ ∧
    ((svc.setAlarmState none v now).2.getAlarmState).lastActor = none := by
  refine ⟨rfl, rfl, ?_, ?_, ?_⟩
  · simp [newService, FileRepo.load]
  · cases hz : now.isZero with
    | true =>
        simp [serverGetAlarmState, toProtoState, toProto, Service.getAlarmState,
              State.clone, Actor.clone, hz]
    | false =>
        simp [serverGetAlarmState, toProtoState, toProto, Service.getAlarmState,
              State.clone, Actor.clone, hz]
  · cases hrepo : svc.repo with
    | none =>
        simp [Service.setAlarmState, Service.getAlarmState, State.clone,
              Actor.clone, hrepo]
    | some r =>
        cases hw : r.writeFails with
        | false =>
            simp [Service.setAlarmState, Service.getAlarmState, State.clone,
                  Actor.clone, FileRepo.save, hrepo, hw]
        | true =>
            simp [Service.setAlarmState, Service.getAlarmState, State.clone,
                  Actor.clone, FileRepo.save, hrepo, hw]

/-- C6: the RPC SetAlarmState handler fails with InvalidArgument exactly
when the request's actor is absent (a nil request reads as an absent
actor), leaving the service — in-memory state and repository alike —
untouched; with an actor present it fails with Internal exactly on a
persistence failure, and on success returns the proto encoding of the new
state (its timestamp, last_actor and is_enabled). -/
theorem server_set_handler_spec (svc : Service)
    (req : Option SetAlarmStateRequest) (now : GoTime) :
    ((serverSetAlarmState svc req now).1 = .error .invalidArgument ↔
        reqGetActor req = none) ∧
    (reqGetActor req = none → (serverSetAlarmState svc req now).2 = svc) ∧
    (reqGetActor req ≠ none → svc.saveFails = true →
        (serverSetAlarmState svc req now).1 = .error .internal) ∧
    (∀ pa, reqGetActor req = some pa → svc.saveFails = false →
        (serverSetAlarmState svc req now).1 =
          .ok (toProto ⟨now, some ⟨pa.hostname, pa.username⟩,
                        reqGetIsEnabled req⟩)) := by
  cases req with
  | none =>
      refine ⟨by simp [serverSetAlarmState, reqGetActor], ?_, ?_, ?_⟩
      · intro _
        rfl
      · intro hne _
        exact absurd rfl hne
      · intro pa hpa
        simp [reqGetActor] at hpa
  | some r =>
      cases hact : r.actor with
      | none =>
          refine ⟨?_, ?_, ?_, ?_⟩
          · simp [serverSetAlarmState, reqGetActor, hact]
          · intro _
            simp [serverSetAlarmState, hact]
          · intro hne _
            simp [reqGetActor, hact] at hne
          · intro pa hpa
            simp [reqGetActor, hact] at hpa
      | some pa =>
          obtain ⟨ph, pu⟩ := pa
          cases hrepo : svc.repo with
          | none =>
              refine ⟨?_, ?_, ?_, ?_⟩
              · simp [serverSetAlarmState, reqGetActor, hact, toDomainActor,
                      Service.setAlarmState, hrepo]
              · intro habs
                simp [reqGetActor, hact] at habs
              · intro _ hsf
                simp [Service.saveFails, hrepo] at hsf
              · intro pa2 hpa2 _
                simp [reqGetActor, hact] at hpa2
                subst hpa2
                simp [serverSetAlarmState, hact, toDomainActor,
                      Service.setAlarmState, hrepo, toProtoState, State.clone,
                      Actor.clone, toProto, reqGetIsEnabled]
          | some rr =>
              cases hw : rr.writeFails with
              | true =>
                  refine ⟨?_, ?_, ?_, ?_⟩
                  · simp [serverSetAlarmState, reqGetActor, hact, toDomainActor,
                          Service.setAlarmState, hrepo, FileRepo.save, hw]
                  · intro habs
                    simp [reqGetActor, hact] at habs
                  · intro _ _
                    simp [serverSetAlarmState, hact, toDomainActor,
                          Service.setAlarmState, hrepo, FileRepo.save, hw]
                  · intro pa2 _ hsf
                    simp [Service.saveFails, hrepo, hw] at hsf
              | false =>
                  refine ⟨?_, ?_, ?_, ?_⟩
                  · simp [serverSetAlarmState, reqGetActor, hact, toDomainActor,
                          Service.setAlarmState, hrepo, FileRepo.save, hw]
                  · intro habs
                    simp [reqGetActor, hact] at habs
                  · intro _ hsf
                    simp [Service.saveFails, hrepo, hw] at hsf
                  · intro pa2 hpa2 _
                    simp [reqGetActor, hact] at hpa2
                    subst hpa2
                    simp [serverSetAlarmState, hact, toDomainActor,
                          Service.setAlarmState, hrepo, FileRepo.save, hw,
                          toProtoState, State.clone, Actor.clone, toProto,
                          reqGetIsEnabled]

/-- C6 witness: missing actor is rejected and alters nothing; a present
actor with a failing disk gives Internal; a present actor with a working
disk gives the encoded new state. -/
theorem server_set_handler_spec_witness :
    (serverSetAlarmState ⟨some ⟨none, false, false, false⟩, ⟨⟨3, 0⟩, none, false⟩⟩
        (some ⟨none, true⟩) ⟨9, 0⟩).2 =
      ⟨some ⟨none, false, false, false⟩, ⟨⟨3, 0⟩, none, false⟩⟩ ∧
    (serverSetAlarmState ⟨some ⟨none, false, false, true⟩, ⟨⟨3, 0⟩, none, false⟩⟩
        (some ⟨some ⟨"h1", "u1"⟩, true⟩) ⟨9, 0⟩).1 = .error .internal ∧
    (serverSetAlarmState ⟨some ⟨none, false, false, false⟩, ⟨⟨3, 0⟩, none, false⟩⟩
        (some ⟨some ⟨"h1", "u1"⟩, true⟩) ⟨9, 0⟩).1 =
      .ok (toProto ⟨⟨9, 0⟩, some ⟨"h1", "u1"⟩, true⟩) := by
  refine ⟨?_, ?_, ?_⟩
  · exact (server_set_handler_spec
      ⟨some ⟨none, false, false, false⟩, ⟨⟨3, 0⟩, none, false⟩⟩
      (some ⟨none, true⟩) ⟨9, 0⟩).2.1 rfl
  · exact (server_set_handler_spec
      ⟨some ⟨none, false, false, true⟩, ⟨⟨3, 0⟩, none, false⟩⟩
      (some ⟨some ⟨"h1", "u1"⟩, true⟩) ⟨9, 0⟩).2.2.1 (by simp [reqGetActor]) rfl
  · exact (server_set_handler_spec
      ⟨some ⟨none, false, false, false⟩, ⟨⟨3, 0⟩, none, false⟩⟩
      (some ⟨some ⟨"h1", "u1"⟩, true⟩) ⟨9, 0⟩).2.2.2 ⟨"h1", "u1"⟩ rfl rfl

/-- In debug mode `checkState` never reaches the shutdown branch: it comes
back nil or with the RPC error, and the shutdown command is not invoked. -/
theorem checkState_debug_cases (resp : Except Unit AlarmStateResponse)
    (shutdownOk : Bool) :
    checkState resp true shutdownOk = (.ok, false) ∨
    checkState resp true shutdownOk = (.rpcError, false) := by
  cases resp with
  | error e => exact Or.inr rfl
  | ok st =>
      cases hsE : st.isEnabled with
      | false => exact Or.inl (by simp [checkState, hsE])
      | true => exact Or.inl (by simp [checkState, hsE])

/-- Debug-mode checker loop: no tick ever invokes the shutdown command. -/
theorem checkerRunAux_debug_no_shutdown (interval : Nat) :
    ∀ (events : List TickEvent) (k : Nat),
      (checkerRunAux true interval events k).shutdownCount = 0 := by
  intro events
  induction events with
  | nil => intro k; simp [checkerRunAux]
  | cons e rest ih =>
      intro k
      cases e with
      | canceled => simp [checkerRunAux]
      | tick resp shutdownOk =>
          rcases checkState_debug_cases resp shutdownOk with hcs | hcs <;>
            simp [checkerRunAux, hcs, ih (k + 1)]

/-- Debug-mode checker loop: a cancellation event makes the loop return
nil. -/
theorem checkerRunAux_debug_canceled (interval : Nat) :
    ∀ (events : List TickEvent) (k : Nat),
      TickEvent.canceled ∈ events →
      (checkerRunAux true interval events k).outcome = .returnedNil := by
  intro events
  induction events with
  | nil => intro k hmem; simp at hmem
  | cons e rest ih =>
      intro k hmem
      cases e with
      | canceled => simp [checkerRunAux]
      | tick resp shutdownOk =>
          have hrest : TickEvent.canceled ∈ rest := by
            rcases List.mem_cons.mp hmem with heq | hrest
            · exact absurd heq (by simp)
            · exact hrest
          rcases checkState_debug_cases resp shutdownOk with hcs | hcs <;>
            simp [checkerRunAux, hcs, ih (k + 1) hrest]

/-- Debug-mode checker loop: without a cancellation it consumes and polls
every tick and is still running afterwards. -/
theorem checkerRunAux_debug_keeps_polling (interval : Nat) :
    ∀ (events : List TickEvent) (k : Nat),
      TickEvent.canceled ∉ events →
      (checkerRunAux true interval events k).outcome = .stillRunning ∧
      (checkerRunAux true interval events k).pollCount = events.length := by
  intro events
  induction events with
  | nil => intro k _; simp [checkerRunAux]
  | cons e rest ih =>
      intro k hmem
      cases e with
      | canceled => exact absurd (List.mem_cons_self _ _) hmem
      | tick resp shutdownOk =>
          have hrest : TickEvent.canceled ∉ rest := fun hr =>
            hmem (List.mem_cons_of_mem _ hr)
          rcases checkState_debug_cases resp shutdownOk with hcs | hcs <;>
            simp [checkerRunAux, hcs, (ih (k + 1) hrest).1,
                  (ih (k + 1) hrest).2, Nat.add_comm]

/-- C4: with debug=true the checker never invokes the OS shutdown command
(whatever every poll observes); it returns nil once its context is
canceled; and absent cancellation it keeps polling on every tick — RPC
errors included — without stopping. -/
theorem checker_debug_never_shuts_down (events : List TickEvent)
    (interval : Nat) :
    (checkerRun events true interval).shutdownCount = 0 ∧
    (TickEvent.canceled ∈ events →
      (checkerRun events true interval).outcome = .returnedNil) ∧
    (TickEvent.canceled ∉ events →
      (checkerRun events true interval).outcome = .stillRunning ∧
      (checkerRun events true interval).pollCount = events.length) :=
  ⟨checkerRunAux_debug_no_shutdown interval events 0,
   fun hmem => checkerRunAux_debug_canceled interval events 0 hmem,
   fun hmem => checkerRunAux_debug_keeps_polling interval events 0 hmem⟩

/-- C4 witness: two enabled polls plus an RPC-error poll in debug mode, then
a cancellation; and the same run without the cancellation. -/
theorem checker_debug_never_shuts_down_witness :
    (checkerRun [TickEvent.tick (.ok ⟨none, none, true⟩) true,
                 TickEvent.tick (.error ()) true,
                 TickEvent.canceled] true 5000).shutdownCount = 0 ∧
    (checkerRun [TickEvent.tick (.ok ⟨none, none, true⟩) true,
                 TickEvent.tick (.error ()) true,
                 TickEvent.canceled] true 5000).outcome = .returnedNil ∧
    (checkerRun [TickEvent.tick (.ok ⟨none, none, true⟩) true,
                 TickEvent.tick (.error ()) true] true 5000).pollCount = 2 := by
  refine ⟨(checker_debug_never_shuts_down _ 5000).1, ?_, ?_⟩
  · exact (checker_debug_never_shuts_down _ 5000).2.1 (by simp)
  · exact ((checker_debug_never_shuts_down
      [TickEvent.tick (.ok ⟨none, none, true⟩) true,
       TickEvent.tick (.error ()) true] 5000).2.2 (by simp)).2

/-- C3: with debug=false, a poll that observes is_enabled=true makes
`checkState` invoke the OS shutdown command and return the distinguished
shutdown-initiated condition; the loop then returns nil having invoked the
shutdown exactly once and issued exactly one RPC, whatever further events
were pending; and a canceled context makes the loop return nil with no
shutdown and no further RPC. -/
theorem checker_enabled_shuts_down_once (st : AlarmStateResponse)
    (rest later : List TickEvent) (interval : Nat)
    (h : st.isEnabled = true) :
    checkState (.ok st) false true = (.shutdownInitiated, true) ∧
    checkerRun (.tick (.ok st) true :: rest) false interval =
      ⟨.returnedNil, 1, 1, [interval]⟩ ∧
    checkerRun (.canceled :: later) false interval =
      ⟨.returnedNil, 0, 0, []⟩ := by
  have hcs : checkState (.ok st) false true = (.shutdownInitiated, true) := by
    simp [checkState, h]
  refine ⟨hcs, ?_, rfl⟩
  simp [checkerRun, checkerRunAux, hcs]

/-- C3 witness: an enabled server observed on the first tick. -/
theorem checker_enabled_shuts_down_once_witness :
    (AlarmStateResponse.mk none none true).isEnabled = true ∧
    checkerRun [TickEvent.tick (.ok ⟨none, none, true⟩) true,
                TickEvent.tick (.ok ⟨none, none, true⟩) true] false 5000 =
      ⟨.returnedNil, 1, 1, [5000]⟩ :=
  ⟨rfl,
   (checker_enabled_shuts_down_once ⟨none, none, true⟩
     [TickEvent.tick (.ok ⟨none, none, true⟩) true] [] 5000 rfl).2.1⟩

/-- Every poll the checker loop issues happens at `(k + 1) * interval` for
some tick index `k`, hence no earlier than one full interval in. -/
theorem checkerRunAux_poll_times_late (debug : Bool) (interval : Nat) :
    ∀ (events : List TickEvent) (k : Nat),
      ∀ t ∈ (checkerRunAux debug interval events k).pollTimes, interval ≤ t := by
  intro events
  induction events with
  | nil => intro k t ht; simp [checkerRunAux] at ht
  | cons e rest ih =>
      intro k t ht
      cases e with
      | canceled => simp [checkerRunAux] at ht
      | tick resp shutdownOk =>
          have hbase : interval ≤ (k + 1) * interval :=
            Nat.le_mul_of_pos_left interval (Nat.succ_pos k)
          cases hcs : checkState resp debug shutdownOk with
          | mk res invoked =>
              cases res with
              | shutdownInitiated =>
                  simp [checkerRunAux, hcs] at ht
                  exact ht ▸ hbase
              | ok =>
                  simp [checkerRunAux, hcs] at ht
                  rcases ht with heq | hmem
                  · exact heq ▸ hbase
                  · exact ih (k + 1) t hmem
              | rpcError =>
                  simp [checkerRunAux, hcs] at ht
                  rcases ht with heq | hmem
                  · exact heq ▸ hbase
                  · exact ih (k + 1) t hmem
              | shutdownFailed =>
                  simp [checkerRunAux, hcs] at ht
                  rcases ht with heq | hmem
                  · exact heq ▸ hbase
                  · exact ih (k + 1) t hmem

/-- C9: the checker makes no immediate first poll — the loop waits on the
ticker, whose first firing is one full interval after loop entry, so every
GetAlarmState RPC (the first included) happens no earlier than one interval
in; the default interval is 5 seconds (5000 ms here). -/
theorem checker_no_immediate_poll (events : List TickEvent) (debug : Bool)
    (interval : Nat) :
    defaultPollInterval = 5 * 1000 ∧
    ∀ t ∈ (checkerRun events debug interval).pollTimes, interval ≤ t :=
  ⟨rfl, fun t ht => checkerRunAux_poll_times_late debug interval events 0 t ht⟩

/-- C9 witness: on a concrete run the single poll happens at t = 5000, one
full default interval after loop entry. -/
theorem checker_no_immediate_poll_witness :
    (5000 : Nat) ∈ (checkerRun [TickEvent.tick (.ok ⟨none, none, false⟩) true]
        false 5000).pollTimes ∧
    (5000 : Nat) ≤ 5000 :=
  ⟨by simp [checkerRun, checkerRunAux, checkState],
   (checker_no_immediate_poll
       [TickEvent.tick (.ok ⟨none, none, false⟩) true] false 5000).2 5000
     (by simp [checkerRun, checkerRunAux, checkState])⟩

/-- An attempt whose response does not confirm the desired value (RPC
error, nil response, or mismatching is_enabled) reports not-done and does
not invoke the shutdown command. -/
theorem attempt_of_not_matches (inp : AttemptInput) (desired debug : Bool)
    (h : ¬ attemptMatches inp desired) :
    attempt inp desired debug = (.notDone, false) := by
  cases hresp : inp.resp with
  | error e => simp [attempt, hresp]
  | ok o =>
      cases o with
      | none => simp [attempt, hresp]
      | some resp =>
          have hne : resp.isEnabled ≠ desired := fun he =>
            h ⟨resp, hresp, he⟩
          simp [attempt, hresp, hne]

/-- An attempt that comes back other than not-done saw a confirming
response. -/
theorem attemptMatches_of_not_notDone (inp : AttemptInput)
    (desired debug : Bool) (h : (attempt inp desired debug).1 ≠ .notDone) :
    attemptMatches inp desired := by
  by_contra hm
  rw [attempt_of_not_matches inp desired debug hm] at h
  exact h rfl

/-- Pushing the disabled state never invokes the shutdown command in a
single attempt. -/
theorem attempt_disable_no_shutdown (inp : AttemptInput) (debug : Bool) :
    (attempt inp false debug).2 = false := by
  cases hresp : inp.resp with
  | error e => simp [attempt, hresp]
  | ok o =>
      cases o with
      | none => simp [attempt, hresp]
      | some resp =>
          cases he : resp.isEnabled <;> simp [attempt, hresp, he]

/-- Client retry loop: when no tick confirms and no cancellation arrives,
the loop attempts on every tick, stays running, and never shuts down. -/
theorem clientRunLoop_keeps_retrying (desired debug : Bool) :
    ∀ events : List ClientEvent,
      (∀ inp, ClientEvent.tick inp ∈ events → ¬ attemptMatches inp desired) →
      ClientEvent.canceled ∉ events →
      clientRunLoop desired debug events = ⟨.running, events.length, 0⟩ := by
  intro events
  induction events with
  | nil => intro _ _; rfl
  | cons e rest ih =>
      intro hnm hnc
      cases e with
      | canceled => exact absurd (List.mem_cons_self _ _) hnc
      | tick inp =>
          have hni : ¬ attemptMatches inp desired :=
            hnm inp (List.mem_cons_self _ _)
          have hrest : ∀ j, ClientEvent.tick j ∈ rest → ¬ attemptMatches j desired :=
            fun j hj => hnm j (List.mem_cons_of_mem _ hj)
          have hcrest : ClientEvent.canceled ∉ rest := fun hr =>
            hnc (List.mem_cons_of_mem _ hr)
          simp [clientRunLoop, attempt_of_not_matches inp desired debug hni,
                ih hrest hcrest, Nat.add_comm]

/-- Client retry loop: when no tick confirms, a cancellation event exits
the loop with the cancellation error. -/
theorem clientRunLoop_canceled (desired debug : Bool) :
    ∀ events : List ClientEvent,
      (∀ inp, ClientEvent.tick inp ∈ events → ¬ attemptMatches inp desired) →
      ClientEvent.canceled ∈ events →
      (clientRunLoop desired debug events).outcome = .canceledErr := by
  intro events
  induction events with
  | nil => intro _ hmem; simp at hmem
  | cons e rest ih =>
      intro hnm hmem
      cases e with
      | canceled => rfl
      | tick inp =>
          have hni : ¬ attemptMatches inp desired :=
            hnm inp (List.mem_cons_self _ _)
          have hrest : ∀ j, ClientEvent.tick j ∈ rest → ¬ attemptMatches j desired :=
            fun j hj => hnm j (List.mem_cons_of_mem _ hj)
          have hmrest : ClientEvent.canceled ∈ rest := by
            rcases List.mem_cons.mp hmem with heq | hr
            · exact absurd heq (by simp)
            · exact hr
          simp [clientRunLoop, attempt_of_not_matches inp desired debug hni,
                ih hrest hmrest]

/-- Client retry loop: a successful exit means some tick saw a confirming
response. -/
theorem clientRunLoop_success_has_match (desired debug : Bool) :
    ∀ events : List ClientEvent,
      (clientRunLoop desired debug events).outcome = .success →
      ∃ inp, ClientEvent.tick inp ∈ events ∧ attemptMatches inp desired := by
  intro events
  induction events with
  | nil => intro h; simp [clientRunLoop] at h
  | cons e rest ih =>
      intro h
      cases e with
      | canceled => simp [clientRunLoop] at h
      | tick inp =>
          rcases ha : attempt inp desired debug with ⟨res, inv⟩
          cases res with
          | done =>
              refine ⟨inp, List.mem_cons_self _ _, ?_⟩
              exact attemptMatches_of_not_notDone inp desired debug
                (by rw [ha]; simp)
          | shutdownError => simp [clientRunLoop, ha] at h
          | notDone =>
              simp only [clientRunLoop, ha] at h
              rcases ih h with ⟨j, hj, hm⟩
              exact ⟨j, List.mem_cons_of_mem _ hj, hm⟩

/-- Client retry loop: pushing the disabled state never invokes the
shutdown command. -/
theorem clientRunLoop_disable_no_shutdown (debug : Bool) :
    ∀ events : List ClientEvent,
      (clientRunLoop false debug events).shutdownCount = 0 := by
  intro events
  induction events with
  | nil => rfl
  | cons e rest ih =>
      cases e with
      | canceled => rfl
      | tick inp =>
          rcases ha : attempt inp false debug with ⟨res, inv⟩
          have hinv : inv = false := by
            have := attempt_disable_no_shutdown inp debug
            rw [ha] at this
            exact this
          subst hinv
          cases res <;> simp [clientRunLoop, ha, ih]

/-- Client retry loop: the first confirming tick after non-confirming,
non-canceling ticks exits the loop successfully. -/
theorem clientRunLoop_reaches_match (desired debug : Bool)
    (inp : AttemptInput) (post : List ClientEvent)
    (hdone : (attempt inp desired debug).1 = .done) :
    ∀ pre : List ClientEvent,
      (∀ j, ClientEvent.tick j ∈ pre → ¬ attemptMatches j desired) →
      ClientEvent.canceled ∉ pre →
      (clientRunLoop desired debug
        (pre ++ ClientEvent.tick inp :: post)).outcome = .success := by
  intro pre
  induction pre with
  | nil =>
      intro _ _
      rcases ha : attempt inp desired debug with ⟨res, inv⟩
      rw [ha] at hdone
      cases res with
      | done => simp [clientRunLoop, ha]
      | shutdownError => exact absurd hdone (by simp)
      | notDone => exact absurd hdone (by simp)
  | cons e pre2 ih =>
      intro hnm hnc
      cases e with
      | canceled => exact absurd (List.mem_cons_self _ _) hnc
      | tick j =>
          have hnj : ¬ attemptMatches j desired :=
            hnm j (List.mem_cons_self _ _)
          have hrest : ∀ j2, ClientEvent.tick j2 ∈ pre2 → ¬ attemptMatches j2 desired :=
            fun j2 hj2 => hnm j2 (List.mem_cons_of_mem _ hj2)
          have hcrest : ClientEvent.canceled ∉ pre2 := fun hr =>
            hnc (List.mem_cons_of_mem _ hr)
          simp [clientRunLoop, attempt_of_not_matches j desired debug hnj,
                ih hrest hcrest]

/-- C5: the button client attempts once immediately and then retries on a
fixed 1-second interval; it exits successfully exactly when a response's
is_enabled equals the desired value (success implies such a response was
seen, and the first confirming tick after failed ones succeeds); it exits
with the cancellation error when the context is canceled; every transient
RPC error or mismatch means retry, not abort; confirming an enable with
debug off triggers exactly one local shutdown, and a disable push never
triggers one. -/
theorem client_retry_spec (first : AttemptInput) (events : List ClientEvent)
    (desired debug : Bool) :
    defaultPushInterval = 1 * 1000 ∧
    (clientRun first [] desired debug).attemptCount = 1 ∧
    ((clientRun first events desired debug).outcome = .success →
      attemptMatches first desired ∨
      ∃ inp, ClientEvent.tick inp ∈ events ∧ attemptMatches inp desired) ∧
    (¬ attemptMatches first desired →
      (∀ inp, ClientEvent.tick inp ∈ events → ¬ attemptMatches inp desired) →
      ClientEvent.canceled ∉ events →
      clientRun first events desired debug = ⟨.running, 1 + events.length, 0⟩) ∧
    (¬ attemptMatches first desired →
      (∀ inp, ClientEvent.tick inp ∈ events → ¬ attemptMatches inp desired) →
      ClientEvent.canceled ∈ events →
      (clientRun first events desired debug).outcome = .canceledErr) ∧
    (clientRun first events false debug).shutdownCount = 0 ∧
    (attemptMatches first true → first.shutdownOk = true →
      clientRun first events true false = ⟨.success, 1, 1⟩) ∧
    (¬ attemptMatches first desired →
      ∀ pre inp post, events = pre ++ ClientEvent.tick inp :: post →
        (∀ j, ClientEvent.tick j ∈ pre → ¬ attemptMatches j desired) →
        ClientEvent.canceled ∉ pre →
        (attempt inp desired debug).1 = .done →
        (clientRun first events desired debug).outcome = .success) := by
  refine ⟨rfl, ?_, ?_, ?_, ?_, ?_, ?_, ?_⟩
  · rcases ha : attempt first desired debug with ⟨res, inv⟩
    cases res <;> simp [clientRun, ha, clientRunLoop]
  · intro hs
    rcases ha : attempt first desired debug with ⟨res, inv⟩
    cases res with
    | done =>
        exact Or.inl (attemptMatches_of_not_notDone first desired debug
          (by rw [ha]; simp))
    | shutdownError => simp [clientRun, ha] at hs
    | notDone =>
        simp only [clientRun, ha] at hs
        rcases clientRunLoop_success_has_match desired debug events hs
          with ⟨j, hj, hm⟩
        exact Or.inr ⟨j, hj, hm⟩
  · intro h1 h2 h3
    simp [clientRun, attempt_of_not_matches first desired debug h1,
          clientRunLoop_keeps_retrying desired debug events h2 h3]
  · intro h1 h2 h3
    simp only [clientRun, attempt_of_not_matches first desired debug h1]
    exact clientRunLoop_canceled desired debug events h2 h3
  · rcases ha : attempt first false debug with ⟨res, inv⟩
    have hinv : inv = false := by
      have := attempt_disable_no_shutdown first debug
      rw [ha] at this
      exact this
    subst hinv
    cases res <;>
      simp [clientRun, ha, clientRunLoop_disable_no_shutdown debug events]
  · intro hm hso
    rcases hm with ⟨resp, hresp, he⟩
    have ha : attempt first true false = (.done, true) := by
      simp [attempt, hresp, he, hso]
    simp [clientRun, ha]
  · intro h1 pre inp post hev hpre hnc hdone
    subst hev
    simp only [clientRun, attempt_of_not_matches first desired debug h1]
    exact clientRunLoop_reaches_match desired debug inp post hdone pre hpre hnc

/-- C5 witness: a first attempt that fails with an RPC error followed by a
confirming tick succeeds (retry, not abort); a first attempt that confirms
an enable with debug off succeeds at once with exactly one shutdown. -/
theorem client_retry_spec_witness :
    (¬ attemptMatches ⟨.error (), true⟩ true) ∧
    (clientRun ⟨.error (), true⟩
        [ClientEvent.tick ⟨.ok (some ⟨none, none, true⟩), true⟩]
        true true).outcome = .success ∧
    clientRun ⟨.ok (some ⟨none, none, true⟩), true⟩ [] true false =
      ⟨.success, 1, 1⟩ :=
  ⟨by simp [attemptMatches],
   (client_retry_spec ⟨.error (), true⟩
       [ClientEvent.tick ⟨.ok (some ⟨none, none, true⟩), true⟩]
       true true).2.2.2.2.2.2.2 (by simp [attemptMatches]) []
     ⟨.ok (some ⟨none, none, true⟩), true⟩ [] rfl (by simp) (by simp) rfl,
   (client_retry_spec ⟨.ok (some ⟨none, none, true⟩), true⟩ [] true
       false).2.2.2.2.2.2.1 ⟨⟨none, none, true⟩, rfl, rfl⟩ rfl⟩

end AlarmButton
